import Mathlib

/-!
Verification of the meliae scanner/dumper engine against its specification.

The repository ships the Python wrapper (memory_dump/scanner.py) and the
test suite (meliae/tests/test__scanner.py), which contains full pure-Python
reference implementations of the record serializer helpers
(_bytes_to_json, _text_to_json, _py_dump_json_obj, py_dump_object_info).
The C extension _scanner (size_of, add_special_size, dump_object_info) is
not part of the sources here; where a property is decided by that missing
code it is modelled from the specification, and the model is marked as such
in its doc comment.
-/

namespace Meliae

/-- One lowercase hexadecimal digit character, as produced by %x formatting. -/
def hexDigit (n : Nat) : Char :=
  if n < 10 then Char.ofNat (48 + n) else Char.ofNat (87 + n)

/-- Four-digit zero-padded lowercase hex rendering (the %04x format used by
_bytes_to_json and _text_to_json in meliae/tests/test__scanner.py). -/
def hex4 (n : Nat) : String :=
  String.mk [hexDigit (n / 4096 % 16), hexDigit (n / 256 % 16),
             hexDigit (n / 16 % 16), hexDigit (n % 16)]

/-- Two-digit lowercase hex rendering; used to state the u00XX shape of
byte escapes. -/
def hex2 (n : Nat) : String :=
  String.mk [hexDigit (n / 16 % 16), hexDigit (n % 16)]

/-- Per-byte loop body of _bytes_to_json: bytes with code point at most 31 or
above 126 become backslash-u escapes, backslash (92), forward slash (47) and
double quote (34) get a leading backslash, everything else passes through. -/
def bytesToJsonChar (c : Nat) : String :=
  if c ≤ 31 ∨ 126 < c then "\\u" ++ hex4 c
  else if c = 92 ∨ c = 47 ∨ c = 34 then "\\" ++ String.singleton (Char.ofNat c)
  else String.singleton (Char.ofNat c)

/-- _bytes_to_json from meliae/tests/test__scanner.py: escape each byte and
wrap the result in double quotes. -/
def bytes_to_json (s : List Nat) : String :=
  "\"" ++ String.join (s.map bytesToJsonChar) ++ "\""

/-- Per-character loop body of _text_to_json.  A code point above 0xffff is
written as its two UTF-16 big-endian code units (this is what
c.encode(utf_16_be) produces for a supplementary code point: the high
surrogate followed by the low surrogate), each as a backslash-u escape. -/
def textToJsonChar (c : Nat) : String :=
  if 0xffff < c then
    "\\u" ++ hex4 (0xd800 + (c - 0x10000) / 0x400) ++
    "\\u" ++ hex4 (0xdc00 + (c - 0x10000) % 0x400)
  else if c ≤ 0x1f ∨ 0x7e < c then "\\u" ++ hex4 c
  else if c = 92 ∨ c = 47 ∨ c = 34 then "\\" ++ String.singleton (Char.ofNat c)
  else String.singleton (Char.ofNat c)

/-- _text_to_json from meliae/tests/test__scanner.py: escape each code point
of a text value and wrap the result in double quotes. -/
def text_to_json (u : List Nat) : String :=
  "\"" ++ String.join (u.map textToJsonChar) ++ "\""

/-- Inverse of one lowercase hex digit. -/
def fromHexDigit (ch : Char) : Option Nat :=
  if 48 ≤ ch.toNat ∧ ch.toNat ≤ 57 then some (ch.toNat - 48)
  else if 97 ≤ ch.toNat ∧ ch.toNat ≤ 102 then some (ch.toNat - 87)
  else none

/-- Read four hex digits; return their value and the remaining input. -/
def readHex4 : List Char → Option (Nat × List Char)
  | a :: b :: c :: d :: rest =>
    match fromHexDigit a, fromHexDigit b, fromHexDigit c, fromHexDigit d with
    | some ha, some hb, some hc, some hd =>
      some (ha * 4096 + hb * 256 + hc * 16 + hd, rest)
    | _, _, _, _ => none
  | _ => none

/-- Read one backslash-u escape that must contain a low surrogate. -/
def readLowSurrogate : List Char → Option (Nat × List Char)
  | [] => none
  | [_] => none
  | e2 :: u2 :: rest =>
    if e2 = '\\' ∧ u2 = 'u' then
      (readHex4 rest).bind fun p =>
        if 0xdc00 ≤ p.1 ∧ p.1 < 0xe000 then some p else none
    else none

/-- Decode exactly one code point at the head of an escaped value body:
a backslash-u escape yields its value, with a high surrogate required to be
followed by a low surrogate (the pair yields one supplementary code point);
a backslash followed by any other character yields that character; an
unescaped double quote is not a code point (it terminates the body); any
other character yields itself. -/
def decodeOne : List Char → Option (Nat × List Char)
  | [] => none
  | ch :: rest =>
    if ch = '"' then none
    else if ch = '\\' then
      match rest with
      | [] => none
      | e :: rest2 =>
        if e = 'u' then
          (readHex4 rest2).bind fun p =>
            if 0xd800 ≤ p.1 ∧ p.1 < 0xdc00 then
              (readLowSurrogate p.2).bind fun q =>
                some (0x10000 + (p.1 - 0xd800) * 0x400 + (q.1 - 0xdc00), q.2)
            else if 0xdc00 ≤ p.1 ∧ p.1 < 0xe000 then none
            else some p
        else some (e.toNat, rest2)
    else some (ch.toNat, rest)

/-- Decode the body of a double-quoted escaped value up to and including the
closing quote, one code point at a time.  The fuel argument only bounds the
number of decoded code points; each code point consumes at least one input
character, so an initial fuel of the input length never runs out. -/
def decodeLoop : Nat → List Char → Option (List Nat)
  | _, [] => none
  | 0, ch :: rest => if ch = '"' ∧ rest = [] then some [] else none
  | fuel2 + 1, ch :: rest =>
    if ch = '"' then if rest = [] then some [] else none
    else (decodeOne (ch :: rest)).bind fun p => (decodeLoop fuel2 p.2).map (List.cons p.1)

/-- Decode the body of an escaped value (everything after the opening quote). -/
def decodeBody (l : List Char) : Option (List Nat) := decodeLoop l.length l

/-- Decode a double-quoted escaped value given as a character list: an
opening quote followed by the escaped body. -/
def decodeJsonChars : List Char → Option (List Nat)
  | [] => none
  | ch :: rest => if ch = '"' then decodeBody rest else none

/-- Decode a full double-quoted escaped value string. -/
def decodeJsonString (s : String) : Option (List Nat) :=
  decodeJsonChars s.data

lemma fromHexDigit_hexDigit : ∀ m, m < 16 → fromHexDigit (hexDigit m) = some m := by decide

lemma charOfNat_toNat : ∀ c, c ≤ 126 → (Char.ofNat c).toNat = c := by decide

lemma hex4_eq_of_lt (n : Nat) (h : n < 256) : hex4 n = "00" ++ hex2 n := by
  apply String.ext
  have h1 : n / 4096 % 16 = 0 := by omega
  have h2 : n / 256 % 16 = 0 := by omega
  have h0 : hexDigit 0 = '0' := by decide
  simp [hex4, hex2, h1, h2, h0, String.data_append]

/-- C4: per-byte behaviour of the value-field escaping for byte strings
(_bytes_to_json): bytes at most 31 or above 126 map to a backslash-u00XX
escape, backslash, forward slash and double quote get a leading backslash,
every other byte passes through literally, and the whole result is wrapped
in double quotes. -/
theorem bytes_to_json_escaping (s : List Nat) (hs : ∀ c ∈ s, c < 256) :
    bytes_to_json s = "\"" ++ String.join (s.map bytesToJsonChar) ++ "\"" ∧
    ∀ c ∈ s,
      ((c ≤ 31 ∨ 126 < c) → bytesToJsonChar c = "\\u00" ++ hex2 c) ∧
      ((c = 92 ∨ c = 47 ∨ c = 34) →
        bytesToJsonChar c = "\\" ++ String.singleton (Char.ofNat c)) ∧
      (32 ≤ c → c ≤ 126 → c ≠ 92 → c ≠ 47 → c ≠ 34 →
        bytesToJsonChar c = String.singleton (Char.ofNat c)) := by
  refine ⟨rfl, fun c hc => ⟨?_, ?_, ?_⟩⟩
  · intro h
    unfold bytesToJsonChar
    rw [if_pos h, hex4_eq_of_lt c (hs c hc)]
    apply String.ext
    simp [String.data_append]
  · intro h
    unfold bytesToJsonChar
    rw [if_neg (by rcases h with rfl | rfl | rfl <;> omega), if_pos h]
  · intro h1 h2 h3 h4 h5
    unfold bytesToJsonChar
    rw [if_neg (by omega), if_neg (by rintro (h | h | h) <;> simp_all)]

/-- Witness for C4 at concrete bytes covering all three escaping cases. -/
theorem bytes_to_json_escaping_witness :
    (∀ c ∈ [92, 200, 97], c < 256) ∧
    (bytes_to_json [92, 200, 97] =
        "\"" ++ String.join ([92, 200, 97].map bytesToJsonChar) ++ "\"" ∧
      ∀ c ∈ [92, 200, 97],
        ((c ≤ 31 ∨ 126 < c) → bytesToJsonChar c = "\\u00" ++ hex2 c) ∧
        ((c = 92 ∨ c = 47 ∨ c = 34) →
          bytesToJsonChar c = "\\" ++ String.singleton (Char.ofNat c)) ∧
        (32 ≤ c → c ≤ 126 → c ≠ 92 → c ≠ 47 → c ≠ 34 →
          bytesToJsonChar c = String.singleton (Char.ofNat c))) :=
  ⟨by decide, bytes_to_json_escaping [92, 200, 97] (by decide)⟩

lemma readHex4_hex4 (m : Nat) (hm : m < 65536) (rest : List Char) :
    readHex4 ((hex4 m).data ++ rest) = some (m, rest) := by
  have e1 := fromHexDigit_hexDigit (m / 4096 % 16) (by omega)
  have e2 := fromHexDigit_hexDigit (m / 256 % 16) (by omega)
  have e3 := fromHexDigit_hexDigit (m / 16 % 16) (by omega)
  have e4 := fromHexDigit_hexDigit (m % 16) (by omega)
  rw [show (hex4 m).data ++ rest
      = hexDigit (m / 4096 % 16) :: hexDigit (m / 256 % 16) ::
        hexDigit (m / 16 % 16) :: hexDigit (m % 16) :: rest from rfl]
  simp only [readHex4, e1, e2, e3, e4]
  congr 1
  congr 1
  omega

lemma readLowSurrogate_hex4 (lo : Nat) (h1 : 0xdc00 ≤ lo) (h2 : lo < 0xe000)
    (rest : List Char) :
    readLowSurrogate ('\\' :: 'u' :: ((hex4 lo).data ++ rest)) = some (lo, rest) := by
  simp [readLowSurrogate, readHex4_hex4 lo (by omega) rest, h1, h2]

lemma decodeOne_bmp (m : Nat) (hm : m < 65536) (hns : ¬(0xd800 ≤ m ∧ m < 0xe000))
    (rest : List Char) :
    decodeOne ('\\' :: 'u' :: ((hex4 m).data ++ rest)) = some (m, rest) := by
  have hA : ¬(0xd800 ≤ m ∧ m < 0xdc00) := by omega
  have hB : ¬(0xdc00 ≤ m ∧ m < 0xe000) := by omega
  simp [decodeOne, readHex4_hex4 m hm rest, hA, hB]

lemma decodeOne_pair (c : Nat) (h1 : 0xffff < c) (h2 : c < 0x110000) (rest : List Char) :
    decodeOne ('\\' :: 'u' :: ((hex4 (0xd800 + (c - 0x10000) / 0x400)).data ++
        ('\\' :: 'u' :: ((hex4 (0xdc00 + (c - 0x10000) % 0x400)).data ++ rest)))) =
      some (c, rest) := by
  have hga : 0xd800 ≤ 0xd800 + (c - 0x10000) / 0x400 := by omega
  have hlt : 0xd800 + (c - 0x10000) / 0x400 < 0xdc00 := by omega
  simp only [decodeOne]
  rw [if_neg (show ('\\' : Char) = '"' → False from by decide)]
  rw [if_pos trivial, if_pos trivial]
  rw [readHex4_hex4 (0xd800 + (c - 0x10000) / 0x400) (by omega)]
  rw [Option.some_bind]
  rw [if_pos (And.intro hga hlt)]
  rw [readLowSurrogate_hex4 (0xdc00 + (c - 0x10000) % 0x400) (by omega) (by omega)]
  rw [Option.some_bind]
  have hval : 65536 + (55296 + (c - 65536) / 1024 - 55296) * 1024 +
      (56320 + (c - 65536) % 1024 - 56320) = c := by omega
  rw [hval]

lemma decodeOne_simple (c : Nat) (h : c = 92 ∨ c = 47 ∨ c = 34) (rest : List Char) :
    decodeOne ('\\' :: Char.ofNat c :: rest) = some (c, rest) := by
  rcases h with rfl | rfl | rfl
  · rw [show Char.ofNat 92 = '\\' from by decide]
    simp [decodeOne]
  · rw [show Char.ofNat 47 = '/' from by decide]
    simp [decodeOne]
  · rw [show Char.ofNat 34 = '"' from by decide]
    simp [decodeOne]

lemma decodeOne_literal (c : Nat) (h2 : c ≤ 126) (h3 : c ≠ 92) (h4 : c ≠ 34)
    (rest : List Char) :
    decodeOne (Char.ofNat c :: rest) = some (c, rest) := by
  have ht : (Char.ofNat c).toNat = c := charOfNat_toNat c h2
  have hq : Char.ofNat c ≠ '"' := fun he => h4 (by rw [← ht, he]; rfl)
  have hb : Char.ofNat c ≠ '\\' := fun he => h3 (by rw [← ht, he]; rfl)
  simp only [decodeOne]
  rw [if_neg hq, if_neg hb, ht]

lemma decodeOne_step (c : Nat) (h2 : c < 0x110000) (hns : ¬(0xd800 ≤ c ∧ c < 0xe000))
    (rest : List Char) :
    decodeOne ((textToJsonChar c).data ++ rest) = some (c, rest) := by
  unfold textToJsonChar
  by_cases hbig : 0xffff < c
  · rw [if_pos hbig]
    rw [show ("\\u" ++ hex4 (0xd800 + (c - 0x10000) / 0x400) ++ "\\u" ++
          hex4 (0xdc00 + (c - 0x10000) % 0x400)).data ++ rest
        = '\\' :: 'u' :: ((hex4 (0xd800 + (c - 0x10000) / 0x400)).data ++
          ('\\' :: 'u' :: ((hex4 (0xdc00 + (c - 0x10000) % 0x400)).data ++ rest))) from by
      simp [String.data_append]]
    exact decodeOne_pair c hbig h2 rest
  · rw [if_neg hbig]
    by_cases hesc : c ≤ 0x1f ∨ 0x7e < c
    · rw [if_pos hesc]
      rw [show ("\\u" ++ hex4 c).data ++ rest = '\\' :: 'u' :: ((hex4 c).data ++ rest) from by
        simp [String.data_append]]
      exact decodeOne_bmp c (by omega) hns rest
    · rw [if_neg hesc]
      by_cases hsim : c = 92 ∨ c = 47 ∨ c = 34
      · rw [if_pos hsim]
        rw [show ("\\" ++ String.singleton (Char.ofNat c)).data ++ rest
            = '\\' :: Char.ofNat c :: rest from rfl]
        exact decodeOne_simple c hsim rest
      · rw [if_neg hsim]
        rw [show (String.singleton (Char.ofNat c)).data ++ rest = Char.ofNat c :: rest from rfl]
        exact decodeOne_literal c (by omega) (fun h => hsim (Or.inl h))
          (fun h => hsim (Or.inr (Or.inr h))) rest

lemma textToJsonChar_head_cases (c : Nat) :
    (textToJsonChar c).data.head? = some '\\' ∨
    ((textToJsonChar c).data.head? = some (Char.ofNat c) ∧ c ≤ 126 ∧ c ≠ 34) := by
  unfold textToJsonChar
  by_cases hbig : 0xffff < c
  · rw [if_pos hbig]
    exact Or.inl rfl
  · rw [if_neg hbig]
    by_cases hesc : c ≤ 0x1f ∨ 0x7e < c
    · rw [if_pos hesc]
      exact Or.inl rfl
    · rw [if_neg hesc]
      by_cases hsim : c = 92 ∨ c = 47 ∨ c = 34
      · rw [if_pos hsim]
        exact Or.inl rfl
      · rw [if_neg hsim]
        exact Or.inr ⟨rfl, by omega, fun h => hsim (Or.inr (Or.inr h))⟩

lemma textToJsonChar_head (c : Nat) :
    ∃ ch t, (textToJsonChar c).data = ch :: t ∧ ch ≠ '"' := by
  rcases textToJsonChar_head_cases c with h | ⟨h, hle, h34⟩
  · cases hd : (textToJsonChar c).data with
    | nil => rw [hd] at h; cases h
    | cons a t =>
      rw [hd] at h
      simp only [List.head?_cons, Option.some.injEq] at h
      subst h
      exact ⟨'\\', t, rfl, by decide⟩
  · cases hd : (textToJsonChar c).data with
    | nil => rw [hd] at h; cases h
    | cons a t =>
      rw [hd] at h
      simp only [List.head?_cons, Option.some.injEq] at h
      subst h
      refine ⟨Char.ofNat c, t, rfl, fun he => ?_⟩
      have ht : (Char.ofNat c).toNat = c := charOfNat_toNat c hle
      exact h34 (by rw [← ht, he]; rfl)

lemma foldl_append_data (l : List String) (s : String) :
    (l.foldl (· ++ ·) s).data = s.data ++ (l.map String.data).flatten := by
  induction l generalizing s with
  | nil => simp
  | cons a l ih => simp [List.foldl_cons, ih, String.data_append]

lemma join_data (l : List String) : (String.join l).data = (l.map String.data).flatten := by
  rw [show String.join l = l.foldl (· ++ ·) "" from rfl, foldl_append_data]
  rfl

lemma decodeLoop_encode (u : List Nat)
    (hv : ∀ c ∈ u, c < 0x110000 ∧ ¬(0xd800 ≤ c ∧ c < 0xe000)) :
    ∀ fuel, u.length ≤ fuel →
      decodeLoop fuel ((u.map fun c => (textToJsonChar c).data).flatten ++ ['"']) = some u := by
  induction u with
  | nil => intro fuel _; cases fuel <;> simp [decodeLoop]
  | cons c u ih =>
    intro fuel hfuel
    have hc := hv c (by simp)
    have hu : ∀ x ∈ u, x < 0x110000 ∧ ¬(0xd800 ≤ x ∧ x < 0xe000) :=
      fun x hx => hv x (by simp [hx])
    obtain ⟨ch, t, hdata, hch⟩ := textToJsonChar_head c
    have hstep := decodeOne_step c hc.1 hc.2
      ((u.map fun c => (textToJsonChar c).data).flatten ++ ['"'])
    rw [hdata] at hstep
    rw [show ((c :: u).map fun c => (textToJsonChar c).data).flatten ++ ['"']
        = ch :: (t ++ ((u.map fun c => (textToJsonChar c).data).flatten ++ ['"'])) from by
      simp [hdata]]
    match fuel, hfuel with
    | fuel2 + 1, hfuel =>
      simp only [decodeLoop]
      rw [if_neg hch]
      simp only [List.cons_append] at hstep
      rw [hstep, Option.some_bind, ih hu fuel2 (by simpa using hfuel)]
      rfl

lemma textToJsonChar_length_pos (c : Nat) : 1 ≤ (textToJsonChar c).data.length := by
  obtain ⟨ch, t, hdata, _⟩ := textToJsonChar_head c
  simp [hdata]

lemma encode_length_le (u : List Nat) :
    u.length ≤ ((u.map fun c => (textToJsonChar c).data).flatten).length := by
  induction u with
  | nil => simp
  | cons c u ih =>
    have := textToJsonChar_length_pos c
    simp only [List.map_cons, List.flatten_cons, List.length_append, List.length_cons]
    omega

lemma decodeJsonString_text_to_json (u : List Nat)
    (hv : ∀ c ∈ u, c < 0x110000 ∧ ¬(0xd800 ≤ c ∧ c < 0xe000)) :
    decodeJsonString (text_to_json u) = some u := by
  have hdata : (text_to_json u).data
      = '"' :: ((u.map fun c => (textToJsonChar c).data).flatten ++ ['"']) := by
    unfold text_to_json
    simp [String.data_append, join_data, Function.comp_def]
  unfold decodeJsonString
  rw [hdata]
  simp only [decodeJsonChars]
  rw [if_pos trivial]
  unfold decodeBody
  apply decodeLoop_encode u hv
  have h1 := encode_length_le u
  simp only [List.length_append, List.length_cons]
  omega

/-- C5: for text values, every code point above the 16-bit basic plane is
serialized by _text_to_json as exactly two backslash-u escapes forming its
UTF-16 surrogate pair with the high surrogate first, and decoding the emitted
escape sequence of a value within the 100-unit preview window reconstructs
the original content exactly. -/
theorem text_to_json_roundtrip_and_surrogates (u : List Nat)
    (hv : ∀ c ∈ u, c < 0x110000 ∧ ¬(0xd800 ≤ c ∧ c < 0xe000))
    (hlen : u.length ≤ 100) :
    decodeJsonString (text_to_json u) = some u ∧
    ∀ c ∈ u, 0xffff < c →
      ∃ hi lo, 0xd800 ≤ hi ∧ hi < 0xdc00 ∧ 0xdc00 ≤ lo ∧ lo < 0xe000 ∧
        0x10000 + (hi - 0xd800) * 0x400 + (lo - 0xdc00) = c ∧
        textToJsonChar c = "\\u" ++ hex4 hi ++ "\\u" ++ hex4 lo := by
  refine ⟨decodeJsonString_text_to_json u hv, fun c hc hbig => ?_⟩
  have hcv := hv c hc
  have hdiv : (c - 0x10000) / 0x400 < 0x400 := by omega
  have hmod : (c - 0x10000) % 0x400 < 0x400 := Nat.mod_lt _ (by omega)
  have hdm := Nat.div_add_mod (c - 0x10000) 0x400
  refine ⟨0xd800 + (c - 0x10000) / 0x400, 0xdc00 + (c - 0x10000) % 0x400,
    by omega, by omega, by omega, by omega, by omega, ?_⟩
  unfold textToJsonChar
  rw [if_pos hbig]

/-- Witness for C5 at the non-BMP code point U+12345 from the test suite. -/
theorem text_to_json_roundtrip_witness :
    (∀ c ∈ [74565], c < 0x110000 ∧ ¬(0xd800 ≤ c ∧ c < 0xe000)) ∧
    ([74565] : List Nat).length ≤ 100 ∧
    (decodeJsonString (text_to_json [74565]) = some [74565] ∧
      ∀ c ∈ [74565], 0xffff < c →
        ∃ hi lo, 0xd800 ≤ hi ∧ hi < 0xdc00 ∧ 0xdc00 ≤ lo ∧ lo < 0xe000 ∧
          0x10000 + (hi - 0xd800) * 0x400 + (lo - 0xdc00) = c ∧
          textToJsonChar c = "\\u" ++ hex4 hi ++ "\\u" ++ hex4 lo) :=
  ⟨by decide, by decide,
    text_to_json_roundtrip_and_surrogates [74565] (by decide) (by decide)⟩

/-- Modelled from the spec: the C implementation of the Object Sizer
(_scanner.size_of) is not under src/ (only its tests are).  An object, as the
sizer observes it: its type name, the result of its self-reporting size hook
when the hook is present, the generic size the host runtime associates with
its type/allocation, and whether it carries a garbage-collection header. -/
structure SizerObj where
  typeName : String
  sizeofHook : Option Int
  genericSize : Nat
  hasGC : Bool

/-- Platform word size and the fixed memory-management header overhead. -/
structure Platform where
  wordSize : Nat
  gcHeadSize : Nat
  wordSizePos : 0 < wordSize

/-- Modelled from the spec (section 4.1 Size Registry): per-type-name
overrides, keyed separately for the narrow and wide size-model widths;
absence of an entry means use default sizing. -/
def Registry : Type :=
  String → Option (SizerObj → Int) × Option (SizerObj → Int)

/-- The registry with no overrides installed. -/
def emptyRegistry : Registry := fun _ => (none, none)

/-- Modelled from the spec: _scanner.add_special_size installs (or, with two
null functions, clears) the override pair for one type name, replacing any
prior entry. -/
def add_special_size (reg : Registry) (name : String)
    (f32 f64 : Option (SizerObj → Int)) : Registry :=
  fun t => if t = name then (f32, f64) else reg t

/-- Look up the override for a type name at the platform's width: the narrow
entry on a 4-byte-word platform, the wide entry otherwise. -/
def lookupSpecial (p : Platform) (reg : Registry) (name : String) :
    Option (SizerObj → Int) :=
  if p.wordSize = 4 then (reg name).1 else (reg name).2

/-- Modelled from the spec (section 4.2 step 2): the default content size
prefers the object's self-reporting hook when present, but a negative hook
result is untrustworthy and falls back to the generic runtime size. -/
def defaultContentSize (o : SizerObj) : Nat :=
  match o.sizeofHook with
  | some r => if r < 0 then o.genericSize else r.toNat
  | none => o.genericSize

/-- Round a size up to the next multiple of the word size. -/
def roundUp (n w : Nat) : Nat := (n + w - 1) / w * w

/-- Modelled from the spec (section 4.2 Object Sizer): a registry override
returning a non-negative value supplies the content size, an override
returning a negative sentinel falls through to the default computation, the
garbage-collection header overhead is added for objects that carry one, and
the result is rounded up to a multiple of the platform word size. -/
def size_of (p : Platform) (reg : Registry) (o : SizerObj) : Nat :=
  let content : Nat :=
    match lookupSpecial p reg o.typeName with
    | some f => if 0 ≤ f o then (f o).toNat else defaultContentSize o
    | none => defaultContentSize o
  roundUp (content + (if o.hasGC then p.gcHeadSize else 0)) p.wordSize

/-- C3: size_of always returns a non-negative integer that is an exact
multiple of the platform word size. -/
theorem size_of_word_aligned (p : Platform) (reg : Registry) (o : SizerObj) :
    0 ≤ (size_of p reg o : Int) ∧ p.wordSize ∣ size_of p reg o := by
  refine ⟨Int.ofNat_nonneg _, ?_⟩
  unfold size_of roundUp
  exact dvd_mul_left _ _

/-- Witness for C3 at a concrete platform, registry and object. -/
theorem size_of_word_aligned_witness :
    0 ≤ (size_of ⟨8, 16, by decide⟩ emptyRegistry ⟨"int", none, 28, false⟩ : Int) ∧
    (8 : Nat) ∣ size_of ⟨8, 16, by decide⟩ emptyRegistry ⟨"int", none, 28, false⟩ :=
  size_of_word_aligned ⟨8, 16, by decide⟩ emptyRegistry ⟨"int", none, 28, false⟩

/-- C1: after add_special_size installs an override pair for a type name, the
size of an instance of that type is the registered function's result with
overhead added and rounding applied, unless that function returns the -1
sentinel, in which case the default computation is used; after clearing the
override by registering two null functions, the size reverts to the default
computation. -/
theorem size_of_special_override (p : Platform) (reg : Registry) (name : String)
    (f32 f64 : SizerObj → Int) (o : SizerObj) (hty : o.typeName = name) :
    ((0 : Int) ≤ (if p.wordSize = 4 then f32 else f64) o →
      size_of p (add_special_size reg name (some f32) (some f64)) o
        = roundUp (((if p.wordSize = 4 then f32 else f64) o).toNat +
            (if o.hasGC then p.gcHeadSize else 0)) p.wordSize) ∧
    ((if p.wordSize = 4 then f32 else f64) o = -1 →
      size_of p (add_special_size reg name (some f32) (some f64)) o
        = roundUp (defaultContentSize o +
            (if o.hasGC then p.gcHeadSize else 0)) p.wordSize) ∧
    size_of p (add_special_size (add_special_size reg name (some f32) (some f64))
        name none none) o
      = roundUp (defaultContentSize o +
          (if o.hasGC then p.gcHeadSize else 0)) p.wordSize ∧
    size_of p (add_special_size (add_special_size reg name (some f32) (some f64))
        name none none) o
      = size_of p emptyRegistry o := by
  have hlook : lookupSpecial p (add_special_size reg name (some f32) (some f64)) o.typeName
      = some (if p.wordSize = 4 then f32 else f64) := by
    unfold lookupSpecial add_special_size
    rw [hty]
    by_cases h4 : p.wordSize = 4 <;> simp [h4]
  have hclear : lookupSpecial p
      (add_special_size (add_special_size reg name (some f32) (some f64)) name none none)
      o.typeName = none := by
    unfold lookupSpecial add_special_size
    rw [hty]
    by_cases h4 : p.wordSize = 4 <;> simp [h4]
  have hempty : lookupSpecial p emptyRegistry o.typeName = none := by
    unfold lookupSpecial emptyRegistry
    by_cases h4 : p.wordSize = 4 <;> simp [h4]
  refine ⟨fun hpos => ?_, fun hneg => ?_, ?_, ?_⟩
  · unfold size_of
    rw [hlook]
    simp only [if_pos hpos]
  · unfold size_of
    rw [hlook]
    simp only [hneg]
    rw [if_neg (by omega)]
  · unfold size_of
    rw [hclear]
  · unfold size_of
    rw [hclear, hempty]

/-- Witness for C1, mirroring test_size_of_special: a 64-bit platform, an
override returning 1600 and one returning the -1 sentinel. -/
theorem size_of_special_override_witness :
    (⟨"CustomWithoutSizeof", none, 16, true⟩ : SizerObj).typeName
        = "CustomWithoutSizeof" ∧
    ((0 : Int) ≤ (if (⟨8, 16, by decide⟩ : Platform).wordSize = 4 then
        (fun _ => (800 : Int)) else fun _ => (1600 : Int))
          (⟨"CustomWithoutSizeof", none, 16, true⟩ : SizerObj) →
      size_of ⟨8, 16, by decide⟩
          (add_special_size emptyRegistry "CustomWithoutSizeof"
            (some fun _ => 800) (some fun _ => 1600))
          ⟨"CustomWithoutSizeof", none, 16, true⟩
        = roundUp (((if (⟨8, 16, by decide⟩ : Platform).wordSize = 4 then
            (fun _ => (800 : Int)) else fun _ => (1600 : Int))
              (⟨"CustomWithoutSizeof", none, 16, true⟩ : SizerObj)).toNat +
            (if (⟨"CustomWithoutSizeof", none, 16, true⟩ : SizerObj).hasGC then
              (16 : Nat) else 0)) 8) ∧
    ((if (⟨8, 16, by decide⟩ : Platform).wordSize = 4 then
        (fun _ => (800 : Int)) else fun _ => (1600 : Int))
          (⟨"CustomWithoutSizeof", none, 16, true⟩ : SizerObj) = -1 →
      size_of ⟨8, 16, by decide⟩
          (add_special_size emptyRegistry "CustomWithoutSizeof"
            (some fun _ => 800) (some fun _ => 1600))
          ⟨"CustomWithoutSizeof", none, 16, true⟩
        = roundUp (defaultContentSize ⟨"CustomWithoutSizeof", none, 16, true⟩ +
            (if (⟨"CustomWithoutSizeof", none, 16, true⟩ : SizerObj).hasGC then
              (16 : Nat) else 0)) 8) ∧
    size_of ⟨8, 16, by decide⟩
        (add_special_size
          (add_special_size emptyRegistry "CustomWithoutSizeof"
            (some fun _ => 800) (some fun _ => 1600))
          "CustomWithoutSizeof" none none)
        ⟨"CustomWithoutSizeof", none, 16, true⟩
      = roundUp (defaultContentSize ⟨"CustomWithoutSizeof", none, 16, true⟩ +
          (if (⟨"CustomWithoutSizeof", none, 16, true⟩ : SizerObj).hasGC then
            (16 : Nat) else 0)) 8 ∧
    size_of ⟨8, 16, by decide⟩
        (add_special_size
          (add_special_size emptyRegistry "CustomWithoutSizeof"
            (some fun _ => 800) (some fun _ => 1600))
          "CustomWithoutSizeof" none none)
        ⟨"CustomWithoutSizeof", none, 16, true⟩
      = size_of ⟨8, 16, by decide⟩ emptyRegistry
          ⟨"CustomWithoutSizeof", none, 16, true⟩ :=
  ⟨rfl, size_of_special_override ⟨8, 16, by decide⟩ emptyRegistry
    "CustomWithoutSizeof" (fun _ => 800) (fun _ => 1600)
    ⟨"CustomWithoutSizeof", none, 16, true⟩ rfl⟩

/-- C7: when the self-reporting size hook returns a negative value, size_of
ignores the hook and returns the generic computation (generic size plus
overhead, rounded), exactly as for the same object without the hook. -/
theorem size_of_negative_hook (p : Platform) (reg : Registry) (o : SizerObj) (r : Int)
    (hnone : lookupSpecial p reg o.typeName = none)
    (hhook : o.sizeofHook = some r) (hneg : r < 0) :
    size_of p reg o
      = roundUp (o.genericSize + (if o.hasGC then p.gcHeadSize else 0)) p.wordSize ∧
    size_of p reg o = size_of p reg ⟨o.typeName, none, o.genericSize, o.hasGC⟩ := by
  have hdflt : defaultContentSize o = o.genericSize := by
    unfold defaultContentSize
    rw [hhook]
    simp [hneg]
  have h1 : size_of p reg o
      = roundUp (o.genericSize + (if o.hasGC then p.gcHeadSize else 0)) p.wordSize := by
    unfold size_of
    rw [hnone, hdflt]
  have h2 : size_of p reg ⟨o.typeName, none, o.genericSize, o.hasGC⟩
      = roundUp (o.genericSize + (if o.hasGC then p.gcHeadSize else 0)) p.wordSize := by
    unfold size_of
    rw [show lookupSpecial p reg
        (⟨o.typeName, none, o.genericSize, o.hasGC⟩ : SizerObj).typeName = none from hnone]
    rfl
  exact ⟨h1, h1.trans h2.symm⟩

/-- Witness for C7, mirroring test__sizeof__instance with CustomSize(-1). -/
theorem size_of_negative_hook_witness :
    lookupSpecial ⟨8, 16, by decide⟩ emptyRegistry
        (⟨"CustomSize", some (-1), 32, true⟩ : SizerObj).typeName = none ∧
    (⟨"CustomSize", some (-1), 32, true⟩ : SizerObj).sizeofHook = some (-1) ∧
    (-1 : Int) < 0 ∧
    (size_of ⟨8, 16, by decide⟩ emptyRegistry ⟨"CustomSize", some (-1), 32, true⟩
        = roundUp (32 + (if (⟨"CustomSize", some (-1), 32, true⟩ : SizerObj).hasGC then
            (16 : Nat) else 0)) 8 ∧
      size_of ⟨8, 16, by decide⟩ emptyRegistry ⟨"CustomSize", some (-1), 32, true⟩
        = size_of ⟨8, 16, by decide⟩ emptyRegistry ⟨"CustomSize", none, 32, true⟩) :=
  ⟨rfl, rfl, by decide,
    size_of_negative_hook ⟨8, 16, by decide⟩ emptyRegistry
      ⟨"CustomSize", some (-1), 32, true⟩ (-1) rfl rfl (by decide)⟩

/-- The outcome of the value-preview chain of _py_dump_json_obj: a byte
string, a text string, the True or False singleton, an integer, an
execution frame (previewed by its code name), or no preview at all. -/
inductive ObjValue where
  | bytesVal (content : List Nat)
  | textVal (content : List Nat)
  | boolTrue
  | boolFalse
  | intVal (n : Int)
  | frameVal (codeName : String)
  | noValue

/-- One heap object as the dumper observes it: type name (code points of
klass.__name__), optional __name__, optional len(), value preview outcome,
identities of the direct referents (gc.get_referents order), the size_of
result, whether the type is one of the no-traverse leaf types dumped inline
(str, int, code, None, bare object), and whether the object is hashable
(an unhashable object makes a set membership test raise TypeError). -/
structure ObjData where
  typeName : List Nat
  name : Option (List Nat)
  length : Option Nat
  value : ObjValue
  refs : List Nat
  size : Nat
  leaf : Bool
  hashable : Bool

/-- A heap: every identity resolves to the data of the object living there. -/
def World : Type := Nat → ObjData

/-- The caller-supplied nodump set: its own identity (it is itself a heap
object) and, for each identity, whether the set contains that object. -/
structure Skip where
  addr : Nat
  mem : Nat → Bool

/-- sys.maxsize on a 64-bit host, as used by the integer-value guard of
_py_dump_json_obj. -/
def maxsize : Nat := 2 ^ 63 - 1

/-- _py_dump_json_obj from meliae/tests/test__scanner.py: render one object
as one self-describing record line (the Python 3 branch, where type names
and the __name__ attribute are text and use the text escaping). -/
def py_dump_json_obj (w : World) (a : Nat) : String :=
  let o := w a
  "\x7b\"address\": " ++ toString a ++
  ", \"type\": " ++ text_to_json o.typeName ++
  ", \"size\": " ++ toString o.size ++
  (match o.name with
   | some nm => ", \"name\": " ++ text_to_json nm
   | none => "") ++
  (match o.length with
   | some l => ", \"len\": " ++ toString l
   | none => "") ++
  (match o.value with
   | ObjValue.bytesVal c => ", \"value\": " ++ bytes_to_json (c.take 100)
   | ObjValue.textVal c => ", \"value\": " ++ text_to_json (c.take 100)
   | ObjValue.boolTrue => ", \"value\": \"True\""
   | ObjValue.boolFalse => ", \"value\": \"False\""
   | ObjValue.intVal n =>
     if n.natAbs ≤ maxsize then ", \"value\": " ++ toString n else ""
   | ObjValue.frameVal s => ", \"value\": \"" ++ s ++ "\""
   | ObjValue.noValue => "") ++
  ", \"refs\": [" ++ String.intercalate ", " (o.refs.map toString) ++ "]\x7d\n"

/-- The child loop of py_dump_object_info: every direct referent of a
no-traverse leaf type is rendered inline, unless the nodump set contains it;
with a nodump set present, the membership test on an unhashable referent
raises TypeError, which this loop does not catch (the error propagates). -/
def dumpChildren (w : World) (nodump : Option Skip) :
    List Nat → Except Unit (List String)
  | [] => Except.ok []
  | r :: rest =>
    if (w r).leaf then
      match nodump with
      | none => (fun t => py_dump_json_obj w r :: t) <$> dumpChildren w none rest
      | some s =>
        if (w r).hashable then
          if s.mem r then dumpChildren w (some s) rest
          else (fun t => py_dump_json_obj w r :: t) <$> dumpChildren w (some s) rest
        else Except.error ()
    else dumpChildren w nodump rest

/-- The object record followed by the inline records of its leaf referents. -/
def dumpBody (w : World) (a : Nat) (nodump : Option Skip) :
    Except Unit (List String) :=
  (fun t => py_dump_json_obj w a :: t) <$> dumpChildren w nodump (w a).refs

/-- py_dump_object_info from meliae/tests/test__scanner.py, at the record
level.  With a nodump set present: if the object is identically the set
itself, nothing is emitted; otherwise the membership test runs inside
try/except, a TypeError (unhashable object) is swallowed and the object is
dumped, a positive membership emits nothing, and otherwise the object record
and the inline leaf-referent records are emitted. -/
def py_dump_object_info (w : World) (a : Nat) :
    Option Skip → Except Unit (List String)
  | none => dumpBody w a none
  | some s =>
    if a = s.addr then Except.ok []
    else if (w a).hashable then
      if s.mem a then Except.ok [] else dumpBody w a (some s)
    else dumpBody w a (some s)

/-- The byte output of py_dump_object_info: the concatenation of its records. -/
def py_dump_object_info_bytes (w : World) (a : Nat) (nodump : Option Skip) :
    Except Unit String :=
  (fun l => String.join l) <$> py_dump_object_info w a nodump

/-- Whether the nodump argument does not exclude identity r: either no set
was supplied, or the set does not contain r. -/
def notInSkip (nodump : Option Skip) (r : Nat) : Bool :=
  match nodump with
  | none => true
  | some s => !s.mem r

/-- The inline records the child loop is expected to produce: one record per
leaf referent not excluded by the nodump set, in referent order. -/
def childRecords (w : World) (nodump : Option Skip) (refs : List Nat) : List String :=
  (refs.filter fun r => (w r).leaf && notInSkip nodump r).map (py_dump_json_obj w)

lemma dumpChildren_none (w : World) (refs : List Nat) :
    dumpChildren w none refs = Except.ok (childRecords w none refs) := by
  induction refs with
  | nil => rfl
  | cons r rest ih =>
    by_cases hleaf : (w r).leaf
    · simp [dumpChildren, hleaf, ih, childRecords, notInSkip, List.filter_cons]
    · simp [dumpChildren, hleaf, ih, childRecords, notInSkip, List.filter_cons]

lemma dumpChildren_some (w : World) (s : Skip) (refs : List Nat)
    (hk : ∀ r ∈ refs, (w r).leaf = true → (w r).hashable = true) :
    dumpChildren w (some s) refs = Except.ok (childRecords w (some s) refs) := by
  induction refs with
  | nil => rfl
  | cons r rest ih =>
    have ihr := ih fun x hx => hk x (by simp [hx])
    by_cases hleaf : (w r).leaf
    · have hh : (w r).hashable = true := hk r (by simp) hleaf
      by_cases hmem : s.mem r
      · simp [dumpChildren, hleaf, hh, hmem, ihr, childRecords, notInSkip, List.filter_cons]
      · simp [dumpChildren, hleaf, hh, hmem, ihr, childRecords, notInSkip, List.filter_cons]
    · simp [dumpChildren, hleaf, ihr, childRecords, notInSkip, List.filter_cons]

/-- C9: when py_dump_object_info emits an object's record, the referents of
no-traverse leaf types and only those are rendered as additional records
immediately after the parent record within the same call, each unless the
nodump set contains it; all other referents appear only inside the parent's
refs array and produce no inline record. -/
theorem py_dump_object_info_inline_leaves (w : World) (a : Nat) (s : Skip)
    (htop1 : a ≠ s.addr)
    (htop2 : (w a).hashable = false ∨ s.mem a = false)
    (hk : ∀ r ∈ (w a).refs, (w r).leaf = true → (w r).hashable = true) :
    py_dump_object_info w a none
      = Except.ok (py_dump_json_obj w a :: childRecords w none (w a).refs) ∧
    py_dump_object_info w a (some s)
      = Except.ok (py_dump_json_obj w a :: childRecords w (some s) (w a).refs) := by
  constructor
  · simp only [py_dump_object_info]
    unfold dumpBody
    rw [dumpChildren_none]
    rfl
  · simp only [py_dump_object_info]
    unfold dumpBody
    rw [if_neg htop1]
    rcases htop2 with hh | hm
    · rw [if_neg (by simp [hh]), dumpChildren_some w s _ hk]
      rfl
    · by_cases hh : (w a).hashable
      · rw [if_pos hh, if_neg (by simp [hm]), dumpChildren_some w s _ hk]
        rfl
      · rw [if_neg hh, dumpChildren_some w s _ hk]
        rfl

/-- Witness for C9: object 0 has a leaf referent 1 and a non-leaf referent 2;
only the leaf referent is rendered inline. -/
theorem py_dump_object_info_inline_leaves_witness :
    ((0 : Nat) ≠ (⟨5, fun _ => false⟩ : Skip).addr) ∧
    (((fun a => if a = 0 then
        ⟨[116], none, none, ObjValue.noValue, [1, 2], 32, false, true⟩
      else if a = 1 then
        ⟨[105], none, none, ObjValue.intVal 7, [], 28, true, true⟩
      else
        ⟨[111], none, none, ObjValue.noValue, [3], 16, false, true⟩ : World) 0).hashable
        = false ∨ (⟨5, fun _ => false⟩ : Skip).mem 0 = false) ∧
    (py_dump_object_info
        (fun a => if a = 0 then
          ⟨[116], none, none, ObjValue.noValue, [1, 2], 32, false, true⟩
        else if a = 1 then
          ⟨[105], none, none, ObjValue.intVal 7, [], 28, true, true⟩
        else
          ⟨[111], none, none, ObjValue.noValue, [3], 16, false, true⟩) 0 none
      = Except.ok (py_dump_json_obj
          (fun a => if a = 0 then
            ⟨[116], none, none, ObjValue.noValue, [1, 2], 32, false, true⟩
          else if a = 1 then
            ⟨[105], none, none, ObjValue.intVal 7, [], 28, true, true⟩
          else
            ⟨[111], none, none, ObjValue.noValue, [3], 16, false, true⟩) 0 ::
          childRecords
            (fun a => if a = 0 then
              ⟨[116], none, none, ObjValue.noValue, [1, 2], 32, false, true⟩
            else if a = 1 then
              ⟨[105], none, none, ObjValue.intVal 7, [], 28, true, true⟩
            else
              ⟨[111], none, none, ObjValue.noValue, [3], 16, false, true⟩) none [1, 2]) ∧
      py_dump_object_info
          (fun a => if a = 0 then
            ⟨[116], none, none, ObjValue.noValue, [1, 2], 32, false, true⟩
          else if a = 1 then
            ⟨[105], none, none, ObjValue.intVal 7, [], 28, true, true⟩
          else
            ⟨[111], none, none, ObjValue.noValue, [3], 16, false, true⟩) 0
          (some ⟨5, fun _ => false⟩)
        = Except.ok (py_dump_json_obj
            (fun a => if a = 0 then
              ⟨[116], none, none, ObjValue.noValue, [1, 2], 32, false, true⟩
            else if a = 1 then
              ⟨[105], none, none, ObjValue.intVal 7, [], 28, true, true⟩
            else
              ⟨[111], none, none, ObjValue.noValue, [3], 16, false, true⟩) 0 ::
            childRecords
              (fun a => if a = 0 then
                ⟨[116], none, none, ObjValue.noValue, [1, 2], 32, false, true⟩
              else if a = 1 then
                ⟨[105], none, none, ObjValue.intVal 7, [], 28, true, true⟩
              else
                ⟨[111], none, none, ObjValue.noValue, [3], 16, false, true⟩)
              (some ⟨5, fun _ => false⟩) [1, 2])) :=
  ⟨by decide, Or.inr rfl,
    py_dump_object_info_inline_leaves _ 0 ⟨5, fun _ => false⟩ (by decide)
      (Or.inr rfl) (by intro r hr _; fin_cases hr <;> rfl)⟩

/-- C8: when the membership test of the dumped object against the nodump set
raises a hashability error, py_dump_object_info treats membership as false
and emits the object's record (with its inline leaf referents) anyway; the
error is not propagated and the call returns normally. -/
theorem py_dump_object_info_unhashable (w : World) (a : Nat) (s : Skip)
    (h1 : a ≠ s.addr) (h2 : (w a).hashable = false)
    (hk : ∀ r ∈ (w a).refs, (w r).leaf = true → (w r).hashable = true) :
    py_dump_object_info w a (some s)
      = Except.ok (py_dump_json_obj w a :: childRecords w (some s) (w a).refs) := by
  simp only [py_dump_object_info]
  unfold dumpBody
  rw [if_neg h1, if_neg (by simp [h2]), dumpChildren_some w s _ hk]
  rfl

/-- Witness for C8: an unhashable object (a dict of an unhashable key, say)
is dumped despite the failing membership test. -/
theorem py_dump_object_info_unhashable_witness :
    ((7 : Nat) ≠ (⟨5, fun _ => true⟩ : Skip).addr) ∧
    (((fun a => if a = 7 then
        ⟨[100], none, some 0, ObjValue.noValue, [1], 64, false, false⟩
      else
        ⟨[105], none, none, ObjValue.intVal 3, [], 28, true, true⟩ : World) 7).hashable
        = false) ∧
    py_dump_object_info
        (fun a => if a = 7 then
          ⟨[100], none, some 0, ObjValue.noValue, [1], 64, false, false⟩
        else
          ⟨[105], none, none, ObjValue.intVal 3, [], 28, true, true⟩) 7
        (some ⟨5, fun _ => true⟩)
      = Except.ok (py_dump_json_obj
          (fun a => if a = 7 then
            ⟨[100], none, some 0, ObjValue.noValue, [1], 64, false, false⟩
          else
            ⟨[105], none, none, ObjValue.intVal 3, [], 28, true, true⟩) 7 ::
          childRecords
            (fun a => if a = 7 then
              ⟨[100], none, some 0, ObjValue.noValue, [1], 64, false, false⟩
            else
              ⟨[105], none, none, ObjValue.intVal 3, [], 28, true, true⟩)
            (some ⟨5, fun _ => true⟩) [1]) :=
  ⟨by decide, rfl,
    py_dump_object_info_unhashable _ 7 ⟨5, fun _ => true⟩ (by decide) rfl
      (by intro r hr _; fin_cases hr <;> rfl)⟩

/-- C10: when the object passed to py_dump_object_info is identically the
nodump set itself, nothing at all is emitted, whatever the heap contents and
whatever the membership function would answer or raise: the identity check
comes before any membership test. -/
theorem py_dump_object_info_skip_itself (w : World) (a : Nat) (memf : Nat → Bool) :
    py_dump_object_info w a (some ⟨a, memf⟩) = Except.ok [] ∧
    py_dump_object_info_bytes w a (some ⟨a, memf⟩) = Except.ok "" := by
  have h : py_dump_object_info w a (some ⟨a, memf⟩) = Except.ok [] := by
    simp only [py_dump_object_info]
    rw [if_pos trivial]
  refine ⟨h, ?_⟩
  unfold py_dump_object_info_bytes
  rw [h]
  rfl

/-- Witness for C10 at a concrete heap and membership function. -/
theorem py_dump_object_info_skip_itself_witness :
    py_dump_object_info
        (fun _ => ⟨[102], none, none, ObjValue.noValue, [], 16, false, false⟩) 3
        (some ⟨3, fun _ => true⟩) = Except.ok [] ∧
    py_dump_object_info_bytes
        (fun _ => ⟨[102], none, none, ObjValue.noValue, [], 16, false, false⟩) 3
        (some ⟨3, fun _ => true⟩) = Except.ok "" :=
  py_dump_object_info_skip_itself
    (fun _ => ⟨[102], none, none, ObjValue.noValue, [], 16, false, false⟩) 3
    (fun _ => true)

/-- The fixed head of a record: address, type and size fields. -/
def c_record_head (a : Nat) (typeName : List Nat) (size : Nat) : String :=
  "\x7b\"address\": " ++ toString a ++
  ", \"type\": " ++ text_to_json typeName ++
  ", \"size\": " ++ toString size

/-- The closing part of a record: the refs array and the closing brace. -/
def c_record_refs (refs : List Nat) : String :=
  ", \"refs\": [" ++ String.intercalate ", " (refs.map toString) ++ "]\x7d\n"

/-- Modelled from the spec: the C serializer (_scanner.dump_object_info) is
not under src/; per the spec an integer record carries a decimal value field
exactly when the value fits the host's native machine-width signed integer
range (64-bit host: -2^63 up to 2^63 - 1), and no value field otherwise. -/
def c_int_value_field (v : Int) : Option String :=
  if -(2 ^ 63) ≤ v ∧ v < 2 ^ 63 then some (", \"value\": " ++ toString v) else none

/-- Modelled from the spec: the record the serializer emits for an integer
object. -/
def c_dump_int_record (a : Nat) (typeName : List Nat) (size : Nat) (v : Int)
    (refs : List Nat) : String :=
  c_record_head a typeName size ++ (c_int_value_field v).getD "" ++ c_record_refs refs

/-- C6: an integer record carries a decimal value field if and only if the
integer fits the native machine-width signed range; out-of-range integers
produce a record with no value field at all.  The in-src test model
(_py_dump_json_obj) guards with abs(value) at most sys.maxsize, which agrees
with the native signed range everywhere except at exactly -2^63. -/
theorem c_dump_int_record_value_iff (v : Int) (a : Nat) (tn : List Nat) (sz : Nat)
    (refs : List Nat) :
    ((-(2 ^ 63) ≤ v ∧ v < 2 ^ 63) →
      c_dump_int_record a tn sz v refs
        = c_record_head a tn sz ++ (", \"value\": " ++ toString v) ++ c_record_refs refs) ∧
    (¬(-(2 ^ 63) ≤ v ∧ v < 2 ^ 63) →
      c_dump_int_record a tn sz v refs = c_record_head a tn sz ++ c_record_refs refs) ∧
    (v.natAbs ≤ maxsize ↔ (-(2 ^ 63) ≤ v ∧ v < 2 ^ 63) ∧ v ≠ -(2 ^ 63)) := by
  refine ⟨fun h => ?_, fun h => ?_, ?_⟩
  · unfold c_dump_int_record c_int_value_field
    rw [if_pos h]
    rfl
  · unfold c_dump_int_record c_int_value_field
    rw [if_neg h]
    simp [String.append_assoc]
  · unfold maxsize
    omega

/-- Witness for C6: 2^256 is out of range and yields no value field, while 7
is in range; the test-model guard differs from the native range at -2^63. -/
theorem c_dump_int_record_value_iff_witness :
    ((-(2 ^ 63) ≤ (7 : Int) ∧ (7 : Int) < 2 ^ 63) →
      c_dump_int_record 1 [105, 110, 116] 32 7 []
        = c_record_head 1 [105, 110, 116] 32 ++ (", \"value\": " ++ toString (7 : Int)) ++
          c_record_refs []) ∧
    (¬(-(2 ^ 63) ≤ (7 : Int) ∧ (7 : Int) < 2 ^ 63) →
      c_dump_int_record 1 [105, 110, 116] 32 7 []
        = c_record_head 1 [105, 110, 116] 32 ++ c_record_refs []) ∧
    ((7 : Int).natAbs ≤ maxsize ↔
      (-(2 ^ 63) ≤ (7 : Int) ∧ (7 : Int) < 2 ^ 63) ∧ (7 : Int) ≠ -(2 ^ 63)) :=
  c_dump_int_record_value_iff 7 1 [105, 110, 116] 32 []

variable {n : Nat}

/-- Modelled from the spec: _scanner.dump_object_info is C extension code not
under src/.  Per section 4.6, at recurse depth 0 it emits exactly the one
record for the given object (its referents are only listed inside that
record, not separately emitted).  A record is identified here by the address
it carries; a heap of n objects is a function from addresses (Fin n) to
referent address lists. -/
def dump_object_info_depth0 (v : Fin n) : List (Fin n) := [v]

/-- The worklist loop of dump_all_referenced (src/memory_dump/scanner.py):
pop the next object; if its address was already seen, skip it; otherwise mark
it seen, dump it at recurse depth 0 and push its not-yet-seen referents.  The
pending list is modelled with its top at the head, so Python's
append-then-pop-from-the-end becomes a reversed prepend. -/
def dumpLoop (g : Fin n → List (Fin n)) : List (Fin n) → Finset (Fin n) → List (Fin n)
  | [], _ => []
  | x :: rest, seen =>
    if hx : x ∈ seen then dumpLoop g rest seen
    else
      dump_object_info_depth0 x ++
        dumpLoop g (((g x).filter fun r => decide (r ∉ insert x seen)).reverse ++ rest)
          (insert x seen)
termination_by pending seen => ((Finset.univ \ seen).card, pending.length)
decreasing_by
  · apply Prod.Lex.right
    simp
  · apply Prod.Lex.left
    have h1 : (Finset.univ \ seen).card = Fintype.card (Fin n) - seen.card := by
      rw [Finset.card_sdiff (Finset.subset_univ seen), Finset.card_univ]
    have h2 : (Finset.univ \ insert x seen).card
        = Fintype.card (Fin n) - (insert x seen).card := by
      rw [Finset.card_sdiff (Finset.subset_univ _), Finset.card_univ]
    have h3 : (insert x seen).card = seen.card + 1 := Finset.card_insert_of_not_mem hx
    have h4 : x ∈ Finset.univ \ seen := by simp [hx]
    have h5 : 0 < (Finset.univ \ seen).card := Finset.card_pos.mpr ⟨x, h4⟩
    omega

/-- dump_all_referenced from src/memory_dump/scanner.py: start from the root
object with an empty IntSet of seen addresses. -/
def dump_all_referenced (g : Fin n → List (Fin n)) (root : Fin n) : List (Fin n) :=
  dumpLoop g [root] ∅

lemma dumpLoop_nodup_aux (g : Fin n → List (Fin n)) :
    ∀ (pending : List (Fin n)) (seen : Finset (Fin n)),
      (dumpLoop g pending seen).Nodup ∧ ∀ v ∈ dumpLoop g pending seen, v ∉ seen := by
  intro pending seen
  induction pending, seen using dumpLoop.induct g with
  | case1 seen => simp [dumpLoop]
  | case2 x rest seen hx ih =>
    rw [dumpLoop, dif_pos hx]
    exact ih
  | case3 x rest seen hx ih =>
    rw [dumpLoop, dif_neg hx]
    refine ⟨?_, ?_⟩
    · refine List.Nodup.cons ?_ ih.1
      intro hmem
      exact (ih.2 _ hmem) (Finset.mem_insert_self x seen)
    · intro v hv
      rcases List.mem_cons.mp hv with rfl | hv2
      · exact hx
      · intro hvs
        exact (ih.2 v hv2) (Finset.mem_insert_of_mem hvs)

lemma dumpLoop_sound (g : Fin n → List (Fin n)) :
    ∀ (pending : List (Fin n)) (seen : Finset (Fin n)), ∀ v ∈ dumpLoop g pending seen,
      ∃ p ∈ pending, Relation.ReflTransGen (fun a b => b ∈ g a) p v := by
  intro pending seen
  induction pending, seen using dumpLoop.induct g with
  | case1 seen => simp [dumpLoop]
  | case2 x rest seen hx ih =>
    rw [dumpLoop, dif_pos hx]
    intro v hv
    obtain ⟨p, hp, hrtg⟩ := ih v hv
    exact ⟨p, List.mem_cons_of_mem x hp, hrtg⟩
  | case3 x rest seen hx ih =>
    rw [dumpLoop, dif_neg hx]
    intro v hv
    rcases List.mem_cons.mp hv with rfl | hv2
    · exact ⟨v, List.mem_cons_self v rest, Relation.ReflTransGen.refl⟩
    · obtain ⟨p, hp, hrtg⟩ := ih v hv2
      rcases List.mem_append.mp hp with hpn | hpr
      · have hpg : p ∈ g x := by
          have := List.mem_reverse.mp hpn
          exact (List.mem_filter.mp this).1
        exact ⟨x, List.mem_cons_self x rest,
          Relation.ReflTransGen.trans (Relation.ReflTransGen.single hpg) hrtg⟩
      · exact ⟨p, List.mem_cons_of_mem x hpr, hrtg⟩

lemma dumpLoop_complete (g : Fin n → List (Fin n)) :
    ∀ (pending : List (Fin n)) (seen : Finset (Fin n)),
      (∀ v ∈ seen, ∀ r ∈ g v, r ∈ seen ∨ r ∈ pending) →
      (∀ p ∈ pending, p ∈ seen ∨ p ∈ dumpLoop g pending seen) ∧
      (∀ v, (v ∈ seen ∨ v ∈ dumpLoop g pending seen) → ∀ r ∈ g v,
        r ∈ seen ∨ r ∈ dumpLoop g pending seen) := by
  intro pending seen
  induction pending, seen using dumpLoop.induct g with
  | case1 seen =>
    intro hcl
    rw [dumpLoop]
    refine ⟨by simp, fun v hv r hr => ?_⟩
    rcases hv with hv | hv
    · rcases hcl v hv r hr with h | h
      · exact Or.inl h
      · cases h
    · cases hv
  | case2 x rest seen hx ih =>
    intro hcl
    rw [dumpLoop, dif_pos hx]
    have hcl2 : ∀ v ∈ seen, ∀ r ∈ g v, r ∈ seen ∨ r ∈ rest := by
      intro v hv r hr
      rcases hcl v hv r hr with h | h
      · exact Or.inl h
      · rcases List.mem_cons.mp h with rfl | hr2
        · exact Or.inl hx
        · exact Or.inr hr2
    obtain ⟨ihA, ihB⟩ := ih hcl2
    refine ⟨fun p hp => ?_, ihB⟩
    rcases List.mem_cons.mp hp with rfl | hp2
    · exact Or.inl hx
    · exact ihA p hp2
  | case3 x rest seen hx ih =>
    intro hcl
    rw [dumpLoop, dif_neg hx]
    have hcl2 : ∀ v ∈ insert x seen, ∀ r ∈ g v,
        r ∈ insert x seen ∨
          r ∈ ((g x).filter fun r => decide (r ∉ insert x seen)).reverse ++ rest := by
      intro v hv r hr
      rcases Finset.mem_insert.mp hv with rfl | hvs
      · by_cases hrs : r ∈ insert v seen
        · exact Or.inl hrs
        · refine Or.inr (List.mem_append.mpr (Or.inl ?_))
          exact List.mem_reverse.mpr (List.mem_filter.mpr ⟨hr, by simp [hrs]⟩)
      · rcases hcl v hvs r hr with h | h
        · exact Or.inl (Finset.mem_insert_of_mem h)
        · rcases List.mem_cons.mp h with rfl | hr2
          · exact Or.inl (Finset.mem_insert_self r seen)
          · exact Or.inr (List.mem_append.mpr (Or.inr hr2))
    obtain ⟨ihA, ihB⟩ := ih hcl2
    constructor
    · intro p hp
      rcases List.mem_cons.mp hp with rfl | hp2
      · exact Or.inr (List.mem_cons_self p _)
      · rcases ihA p (List.mem_append.mpr (Or.inr hp2)) with h | h
        · rcases Finset.mem_insert.mp h with rfl | hps
          · exact Or.inr (List.mem_cons_self p _)
          · exact Or.inl hps
        · exact Or.inr (List.mem_cons_of_mem x h)
    · intro v hv r hr
      have hv2 : v ∈ insert x seen ∨
          v ∈ dumpLoop g (((g x).filter fun r => decide (r ∉ insert x seen)).reverse ++ rest)
            (insert x seen) := by
        rcases hv with hvs | hvo
        · exact Or.inl (Finset.mem_insert_of_mem hvs)
        · rcases List.mem_cons.mp hvo with rfl | hvo2
          · exact Or.inl (Finset.mem_insert_self v seen)
          · exact Or.inr hvo2
      rcases ihB v hv2 r hr with h | h
      · rcases Finset.mem_insert.mp h with rfl | hrs
        · exact Or.inr (List.mem_cons_self r _)
        · exact Or.inl hrs
      · exact Or.inr (List.mem_cons_of_mem x h)

/-- C2: a closure dump (dump_all_referenced) never emits two records with the
same address, and it emits exactly one record per identity reachable from the
root: an address appears in the output precisely when it is reachable along
referent edges. -/
theorem dump_all_referenced_spec :
    ∀ (n : Nat) (g : Fin n → List (Fin n)) (root : Fin n),
      (dump_all_referenced g root).Nodup ∧
      ∀ v, v ∈ dump_all_referenced g root ↔
        Relation.ReflTransGen (fun a b => b ∈ g a) root v := by
  intro n g root
  have haux := dumpLoop_nodup_aux g [root] ∅
  have hcomp := dumpLoop_complete g [root] ∅ (by simp)
  refine ⟨haux.1, fun v => ⟨?_, ?_⟩⟩
  · intro hv
    obtain ⟨p, hp, hrtg⟩ := dumpLoop_sound g [root] ∅ v hv
    rw [List.mem_singleton] at hp
    exact hp ▸ hrtg
  · intro hrtg
    have hroot : root ∈ dump_all_referenced g root := by
      rcases hcomp.1 root (by simp) with h | h
      · exact absurd h (Finset.not_mem_empty root)
      · exact h
    induction hrtg with
    | refl => exact hroot
    | tail _ hstep ih =>
      rcases hcomp.2 _ (Or.inr ih) _ hstep with h | h
      · exact absurd h (Finset.not_mem_empty _)
      · exact h

/-- Witness for C2 on a concrete two-node graph with a self loop. -/
theorem dump_all_referenced_spec_witness :
    (dump_all_referenced (fun _ => [0]) (0 : Fin 2)).Nodup ∧
    ∀ v, v ∈ dump_all_referenced (fun _ => [0]) (0 : Fin 2) ↔
      Relation.ReflTransGen (fun a b => b ∈ (fun _ => [(0 : Fin 2)]) a) 0 v :=
  dump_all_referenced_spec 2 (fun _ => [0]) 0

end Meliae
